import Mathlib

/-!
Verification development for the segmentation engine of the `rag-experiment`
repository.  The definitions below are a shallow embedding, translated from
`src/extraction/pdf_extractor.py` (scan strategy) and
`src/extraction/extract_sections_toc.py` (outline / TOC strategy).
Python strings are modelled as Lean `String`s (lists of characters), the
PyMuPDF renderer as an abstract function from a page list to either an error
or a list of per-page markdown texts, and Python exceptions as `Except`.
Page numbers handled by the scan strategy are `Nat` (they are 1-based in the
CLI); TOC page numbers and offsets are `Int`, as Python allows a negative
`--page-offset`.
-/

namespace RagSeg

/-! ## Python string primitives -/

/-- The whitespace characters recognised by Python's `str.strip`, `str.split`
and the regex class `\s` (restricted to ASCII, which is what the PDF texts
use). -/
def isPySpace (c : Char) : Bool :=
  c = ' ' || c = '\t' || c = '\n' || c = '\r' || c = '\x0b' || c = '\x0c'

/-- `text.split('\n')` from Python, on character lists.  Always returns at
least one (possibly empty) line. -/
def splitLines : List Char → List (List Char)
  | [] => [[]]
  | c :: rest =>
    if c = '\n' then [] :: splitLines rest
    else
      match splitLines rest with
      | [] => [[c]]
      | l :: ls => (c :: l) :: ls

/-- Python `str.strip()` on a character list: drop leading and trailing
whitespace. -/
def pyStripList (l : List Char) : List Char :=
  ((l.dropWhile isPySpace).reverse.dropWhile isPySpace).reverse

/-- Python `str.strip()` on strings. -/
def pyStrip (s : String) : String :=
  String.mk (pyStripList s.data)

/-- Helper for `len(s.split())`: counts maximal runs of non-whitespace
characters; the flag records whether we are currently inside such a run. -/
def wcAux : List Char → Bool → Nat
  | [], _ => 0
  | c :: rest, inw =>
    if isPySpace c then wcAux rest false
    else (if inw then 0 else 1) + wcAux rest true

/-- `len(s.split())` from Python: the number of whitespace-delimited tokens. -/
def pyWordCount (s : String) : Nat :=
  wcAux s.data false

/-- State tracker for `wcAux`: whether the last character seen so far is a
non-whitespace character (starting from `inw`). -/
def endSt (l : List Char) (inw : Bool) : Bool :=
  l.foldl (fun _ c => !isPySpace c) inw

/-- Match of the regex `^#{5}\s+(.+)$` against one (already stripped) line:
exactly five `#` characters, then at least one whitespace character, then the
captured title.  Returns the capture of group 1 (before the final
`.strip()` that the callers apply). -/
def matchHeader5 : List Char → Option (List Char)
  | '#' :: '#' :: '#' :: '#' :: '#' :: rest =>
    match rest with
    | [] => none
    | c :: _ =>
      if isPySpace c then
        let title := rest.dropWhile isPySpace
        if title.isEmpty then none else some title
      else none
  | _ => none

/-- Inner loop of `find_section_header_in_text`: scan the lines in order and
return the first 5-level header title together with its line number. -/
def findHeaderInLines : List (List Char) → Nat → Option (String × Nat)
  | [], _ => none
  | line :: rest, i =>
    match matchHeader5 (pyStripList line) with
    | some title => some (String.mk (pyStripList title), i)
    | none => findHeaderInLines rest (i + 1)

/-- `find_section_header_in_text` from `pdf_extractor.py`: find the first
5-level markdown header (`##### Title`) in a page's text, returning the
stripped title and the line number. -/
def find_section_header_in_text (text : String) : Option (String × Nat) :=
  findHeaderInLines (splitLines text.data) 0

/-- The regex class `\w` (ASCII): letters, digits and underscore. -/
def isWordChar (c : Char) : Bool :=
  c.isAlphanum || c = '_'

/-- Helper for `re.sub(r'\s+', '_', s)`: replace each maximal whitespace run
by a single underscore; the flag records whether the previous character was
whitespace. -/
def collapseWsAux : List Char → Bool → List Char
  | [], _ => []
  | c :: rest, prevWs =>
    if isPySpace c then
      if prevWs then collapseWsAux rest true
      else '_' :: collapseWsAux rest true
    else c :: collapseWsAux rest false

/-- `re.sub(r'\s+', '_', s)` on a character list. -/
def collapseWs (l : List Char) : List Char :=
  collapseWsAux l false

/-- The slug computation of `extract_next_section` (`pdf_extractor.py`
lines 124-125): `re.sub(r'[^\w\s-]', '', title).strip()`, then whitespace
runs replaced by `_`, then lowercased. -/
def scanSlug (title : String) : String :=
  let kept := title.data.filter (fun c => isWordChar c || isPySpace c || c = '-')
  String.mk ((collapseWs (pyStripList kept)).map Char.toLower)

/-- `generate_section_id` from `extract_sections_toc.py`: same slug as the
scan strategy, but additionally prefixed with `section_` when it starts with
a digit, and falling back to `untitled_section` when empty. -/
def generate_section_id (title : String) : String :=
  let kept := title.data.filter (fun c => isWordChar c || isPySpace c || c = '-')
  let slug := (collapseWs (pyStripList kept)).map Char.toLower
  let slug2 := match slug with
    | [] => []
    | c :: _ => if c.isDigit then ("section_".data ++ slug) else slug
  if slug2.isEmpty then "untitled_section" else String.mk slug2

/-- Join a list of strings with a separator (like Python's `sep.join`). -/
def joinSep (sep : String) : List String → String
  | [] => ""
  | [t] => t
  | t :: ts => t ++ sep ++ joinSep sep ts

/-- The page-combining loop of `extract_next_section` (`pdf_extractor.py`
lines 188-195): accumulate page texts, inserting `"\n\n"` before a page's
text whenever the accumulator is non-empty. -/
def combinePages (texts : List String) : String :=
  texts.foldl (fun acc t => if acc ≠ "" then acc ++ "\n\n" ++ t else t) ""

/-! ## Scan strategy (`pdf_extractor.py`) -/

/-- The `pymupdf4llm.to_markdown(pdf_path, pages=..., page_chunks=True, ...)`
collaborator: a request for a list of pages either raises (modelled as
`Except.error`) or yields one markdown text per page.  The PDF path is fixed
per run, so it is not a parameter. -/
def Renderer : Type := List Nat → Except String (List String)

/-- The `section_info` dictionary built by `extract_next_section`
(`pdf_extractor.py` lines 197-211).  The nested `metadata` dict is flattened
into `header_found` (the other two metadata entries are the constants
`len(final_pages)` and `'memory_efficient'`). -/
structure SectionInfo where
  section_id : String
  section_title : String
  start_page : Nat
  end_page : Nat
  pages : List Nat
  content : String
  character_count : Nat
  word_count : Nat
  header_found : Bool
deriving Repr, DecidableEq

/-- The extended-search loop of `extract_next_section` (`pdf_extractor.py`
lines 158-167), already fused with the page list: for each
`(page text, page number)` pair in order, either the page carries a header
(then it becomes `next_section_start` and the loop breaks) or
`section_end_page` is advanced to that page.  The state is
`(section_end_page, next_section_start)`. -/
def extLoop : List (String × Nat) → Nat → Nat × Option Nat
  | [], se => (se, none)
  | (t, p) :: rest, se =>
    if (find_section_header_in_text t).isSome then (se, some p)
    else extLoop rest p

/-- Boundary search over the initial window (`pdf_extractor.py` lines
127-140): `section_end_page` defaults to the end of the returned batch; the
first page after the window's first page that carries a header becomes the
boundary. -/
def initialBoundary (start_page : Nat) (result : List String) : Nat × Option Nat :=
  match result.tail.findIdx? (fun t => (find_section_header_in_text t).isSome) with
  | some i0 => (start_page + i0, some (start_page + i0 + 1))
  | none => (start_page + result.length - 1, none)

/-- The one extension step of `extract_next_section` (`pdf_extractor.py`
lines 144-170): taken only when no boundary was found, the batch filled the
whole look-ahead window and the document end was not reached; it fetches up
to 20 further pages and rescans.  A renderer error here is caught and leaves
the state unchanged. -/
def extendBoundary (render : Renderer) (start_page initial_batch_size total_pages : Nat)
    (st : Nat × Option Nat) : Nat × Option Nat :=
  if st.2.isNone && st.1 == start_page + initial_batch_size - 1 && st.1 < total_pages then
    let extended_pages :=
      List.range' (st.1 + 1) (min (total_pages + 1) (st.1 + 21) - (st.1 + 1))
    if extended_pages.isEmpty then st
    else
      match render extended_pages with
      | .error _ => st
      | .ok extended_result => extLoop (extended_result.zip extended_pages) st.1
  else st

/-- `extract_next_section` from `pdf_extractor.py` (lines 68-217), over an
abstract renderer.  Returns `(section, next_start_page)`; `none` stands for
Python's `None` section (no more sections, empty render result, or a caught
renderer exception). -/
def extract_next_section (render : Renderer) (start_page total_pages look_ahead_pages : Nat) :
    Option SectionInfo × Nat :=
  if start_page > total_pages then (none, start_page)
  else
    let initial_batch_size := min look_ahead_pages (total_pages - start_page + 1)
    let pages_to_extract := List.range' start_page initial_batch_size
    match render pages_to_extract with
    | .error _ => (none, start_page + 1)
    | .ok result =>
      match result with
      | [] => (none, start_page + 1)
      | first_page_text :: _ =>
        let first_header := find_section_header_in_text first_page_text
        let header_title :=
          match first_header with
          | none => "Content starting at Page " ++ toString start_page
          | some (t, _) => t
        let section_id :=
          match first_header with
          | none => "untitled_page_" ++ toString start_page
          | some (t, _) => scanSlug t
        let st0 := initialBoundary start_page result
        let st1 := extendBoundary render start_page initial_batch_size total_pages st0
        let bounds :=
          match st1.2 with
          | none => (total_pages, total_pages + 1)
          | some n => (st1.1, n)
        let final_pages := List.range' start_page (bounds.1 + 1 - start_page)
        match render final_pages with
        | .error _ => (none, start_page + 1)
        | .ok final_result =>
          let section_content := combinePages final_result
          (some { section_id := section_id
                  section_title := header_title
                  start_page := start_page
                  end_page := bounds.1
                  pages := final_pages
                  content := section_content
                  character_count := section_content.length
                  word_count := pyWordCount section_content
                  header_found := first_header.isSome },
           bounds.2)

/-- The per-section metadata kept by `extract_all_sections`
(`pdf_extractor.py` lines 289-297); the `file_path` entry is the artifact
location and is dropped here (the sink is out of scope). -/
structure SectionSummary where
  title : String
  id : String
  start_page : Nat
  end_page : Nat
  character_count : Nat
  word_count : Nat
deriving Repr, DecidableEq

/-- Build the summary record stored in the manifest for one section. -/
def toSummary (sec : SectionInfo) : SectionSummary :=
  { title := sec.section_title
    id := sec.section_id
    start_page := sec.start_page
    end_page := sec.end_page
    character_count := sec.character_count
    word_count := sec.word_count }

/-- The `while current_page <= total_pages` loop of `extract_all_sections`
(`pdf_extractor.py` lines 274-309).  The loop terminates because the cursor
strictly advances (proved below); here it is written with an explicit fuel
parameter so that the definition computes, and `none` marks fuel exhaustion
— shown unreachable for fuel `≥ total_pages + 1 - current_page`.  The
returned `Bool` records whether the safety-bound break at
`section_count > 100` was taken (the code prints a console warning at that
point; nothing is added to the summary). -/
def scanLoop (render : Renderer) (total_pages : Nat) :
    Nat → Nat → Nat → List SectionSummary → Option (List SectionSummary × Bool)
  | fuel, current_page, section_count, acc =>
    if current_page ≤ total_pages then
      match fuel with
      | 0 => none
      | fuel' + 1 =>
        match extract_next_section render current_page total_pages 20 with
        | (none, _) => some (acc, false)
        | (some sec, next_page) =>
          let acc2 := acc ++ [toSummary sec]
          if section_count + 1 > 100 then some (acc2, true)
          else scanLoop render total_pages fuel' next_page (section_count + 1) acc2
    else some (acc, false)

/-- The summary dictionary returned by `extract_all_sections`
(`pdf_extractor.py` lines 260-264 and 312-320); `pdf_file` and the artifact
path list are dropped (out-of-scope collaborators), `sections_found` is
`sections.length`. -/
structure RunSummary where
  success : Bool
  total_pages : Nat
  start_page : Nat
  sections : List SectionSummary
deriving Repr, DecidableEq

/-- `extract_all_sections` from `pdf_extractor.py` (lines 241-335), over an
abstract renderer, with the page count passed in (the code reads it from the
document; a zero count yields the error dictionary of lines 259-264).  The
fuel `total_pages + 1` is sufficient (see the termination theorem), so the
`none` fallback branch is unreachable. -/
def extract_all_sections (render : Renderer) (total_pages start_page : Nat) : RunSummary :=
  if total_pages = 0 then
    { success := false, total_pages := 0, start_page := start_page, sections := [] }
  else
    match scanLoop render total_pages (total_pages + 1) start_page 0 [] with
    | some (secs, _) =>
      { success := true, total_pages := total_pages, start_page := start_page, sections := secs }
    | none =>
      { success := true, total_pages := total_pages, start_page := start_page, sections := [] }

/-- Whether the safety-bound console warning of `extract_all_sections`
(`pdf_extractor.py` lines 307-308) fires during a run. -/
def scanSafetyWarning (render : Renderer) (total_pages start_page : Nat) : Bool :=
  if total_pages = 0 then false
  else
    match scanLoop render total_pages (total_pages + 1) start_page 0 [] with
    | some (_, w) => w
    | none => false

/-- The metadata block written by `save_section_immediately`
(`pdf_extractor.py` lines 230-236), up to and including the `---` divider. -/
def scanMetaBlock (sec : SectionInfo) : String :=
  "# " ++ sec.section_title ++ "\n\n" ++
  "**Pages:** " ++ toString sec.start_page ++ "-" ++ toString sec.end_page ++
  " (" ++ toString sec.pages.length ++ " pages)\n" ++
  "**Characters:** " ++ toString sec.character_count ++ "\n" ++
  "**Words:** " ++ toString sec.word_count ++ "\n" ++
  "**Section ID:** " ++ sec.section_id ++ "\n\n" ++
  "---\n\n"

/-- The full artifact text written by `save_section_immediately`
(`pdf_extractor.py` lines 230-237): the metadata block followed by the raw
section content. -/
def scanArtifactText (sec : SectionInfo) : String :=
  scanMetaBlock sec ++ sec.content

/-! ## Outline (TOC) strategy (`extract_sections_toc.py`) -/

/-- The renderer collaborator as used by the TOC script: page numbers are
`Int` because a negative `--page-offset` can push requested pages below 1
(Python would forward them unchanged). -/
def TocRenderer : Type := List Int → Except String (List String)

/-- Python `range(a, b)` over integers. -/
def pyRangeInt (a b : Int) : List Int :=
  (List.range (b - a).toNat).map (fun k => a + k)

/-- One structured TOC entry as built by `get_pdf_toc_and_pages`
(`extract_sections_toc.py` lines 49-56): the raw `(level, title, page)`
triple with the title stripped and a derived section id (computed from the
unstripped title, as in the source). -/
structure TocEntry where
  level : Int
  title : String
  page : Int
  section_id : String
deriving Repr, DecidableEq

/-- Build the structured entry list from raw `(level, title, page)` triples,
as `get_pdf_toc_and_pages` does. -/
def mkTocEntries (raw : List (Int × String × Int)) : List TocEntry :=
  raw.map (fun e => { level := e.1, title := pyStrip e.2.1, page := e.2.2,
                      section_id := generate_section_id e.2.1 })

/-- A TOC entry augmented with the page bounds computed by
`calculate_section_boundaries`. -/
structure TocSection where
  level : Int
  title : String
  page : Int
  section_id : String
  start_page : Int
  end_page : Int
  page_count : Int
deriving Repr, DecidableEq

/-- `calculate_section_boundaries` from `extract_sections_toc.py` (lines
73-101): for entry `i`, `start_page = entry.page + offset` clamped into
`[1, total_pages]`; `end_page` is the next entry's adjusted page minus one
(or `total_pages` for the last entry), clamped into
`[start_page, total_pages]`. -/
def calculate_section_boundaries (toc_entries : List TocEntry) (total_pages page_offset : Int) :
    List TocSection :=
  match toc_entries with
  | [] => []
  | [e] =>
    let start_page := max 1 (min (e.page + page_offset) total_pages)
    let end_page := max start_page (min total_pages total_pages)
    [{ level := e.level, title := e.title, page := e.page, section_id := e.section_id,
       start_page := start_page, end_page := end_page,
       page_count := end_page - start_page + 1 }]
  | e :: e2 :: rest =>
    let start_page := max 1 (min (e.page + page_offset) total_pages)
    let end_page := max start_page (min (e2.page + page_offset - 1) total_pages)
    { level := e.level, title := e.title, page := e.page, section_id := e.section_id,
      start_page := start_page, end_page := end_page,
      page_count := end_page - start_page + 1 } ::
    calculate_section_boundaries (e2 :: rest) total_pages page_offset

/-- The `section_content` dictionary built by `extract_section_content`
(`extract_sections_toc.py` lines 150-163); the `page_range` string and the
per-page metadata list are reflected by the fields that the claims use. -/
structure SectionContent where
  title : String
  section_id : String
  level : Int
  text : String
  start_page : Int
  end_page : Int
  page_count : Int
  character_count : Nat
  word_count : Nat
deriving Repr, DecidableEq

/-- `extract_section_content` from `extract_sections_toc.py` (lines
103-169): fetch the section's page range, concatenate each page's text
followed by a newline, strip the result, and record the sums of the
per-page character and word counts.  A renderer error or an empty result
yields `none` (the section is skipped). -/
def extract_section_content (render : TocRenderer) (sec : TocSection) :
    Option SectionContent :=
  match render (pyRangeInt sec.start_page (sec.end_page + 1)) with
  | .error _ => none
  | .ok texts =>
    if texts.isEmpty then none
    else
      let combined_text := String.join (texts.map (fun t => t ++ "\n"))
      some { title := sec.title
             section_id := sec.section_id
             level := sec.level
             text := pyStrip combined_text
             start_page := sec.start_page
             end_page := sec.end_page
             page_count := sec.page_count
             character_count := (texts.map String.length).sum
             word_count := (texts.map pyWordCount).sum }

/-- The metadata block written by the TOC variant of
`save_section_immediately` (`extract_sections_toc.py` lines 183-189),
including the `**TOC Level:**` line. -/
def tocMetaBlock (sc : SectionContent) : String :=
  "# " ++ sc.title ++ "\n\n" ++
  "**Pages:** " ++ toString sc.start_page ++ "-" ++ toString sc.end_page ++
  " (" ++ toString sc.page_count ++ " pages)\n" ++
  "**Characters:** " ++ toString sc.character_count ++ "\n" ++
  "**Words:** " ++ toString sc.word_count ++ "\n" ++
  "**Section ID:** " ++ sc.section_id ++ "\n" ++
  "**TOC Level:** " ++ toString sc.level ++ "\n\n" ++
  "---\n\n"

/-- The full artifact text written by the TOC variant of
`save_section_immediately` (`extract_sections_toc.py` lines 182-190). -/
def tocArtifactText (sc : SectionContent) : String :=
  tocMetaBlock sc ++ sc.text

/-- Per-section manifest metadata kept by `extract_sections_by_toc`
(`extract_sections_toc.py` lines 256-265), without the artifact path. -/
structure TocSectionMeta where
  title : String
  id : String
  start_page : Int
  end_page : Int
  character_count : Nat
  word_count : Nat
  toc_level : Int
deriving Repr, DecidableEq

/-- The extraction loop of `extract_sections_by_toc` (lines 243-270):
extract content for each planned section; sections with no content are
skipped, the rest contribute their metadata in order. -/
def tocRunLoop (render : TocRenderer) : List TocSection → List TocSectionMeta
  | [] => []
  | sec :: rest =>
    match extract_section_content render sec with
    | some sc =>
      { title := sc.title, id := sc.section_id, start_page := sc.start_page,
        end_page := sc.end_page, character_count := sc.character_count,
        word_count := sc.word_count, toc_level := sc.level } :: tocRunLoop render rest
    | none => tocRunLoop render rest

/-- The summary dictionary built by `extract_sections_by_toc` (lines
273-284), restricted to the fields the claims mention. -/
structure TocSummary where
  success : Bool
  total_pages : Int
  sections_found : Nat
  page_offset_applied : Int
  toc_entries_found : Nat
  sections : List TocSectionMeta
deriving Repr, DecidableEq

/-- Result of `extract_sections_by_toc`: either the error dictionary
`{"error": "No TOC found", "sections_extracted": 0}` (lines 215-218) or a
summary. -/
inductive TocRunResult where
  | noToc
  | done (summary : TocSummary)
deriving Repr, DecidableEq

/-- `extract_sections_by_toc` from `extract_sections_toc.py` (lines
194-297), with the TOC entries and page count passed in (the code reads
them from the document).  The empty-outline check happens before the
optional level filter; the filter is applied only when `toc_levels` is
truthy in Python, i.e. present and non-empty. -/
def extract_sections_by_toc (render : TocRenderer) (toc_entries : List TocEntry)
    (total_pages page_offset : Int) (toc_levels : Option (List Int)) : TocRunResult :=
  if toc_entries.isEmpty then .noToc
  else
    let filtered :=
      match toc_levels with
      | none => toc_entries
      | some lvls =>
        if lvls.isEmpty then toc_entries
        else toc_entries.filter (fun e => lvls.contains e.level)
    let sections := calculate_section_boundaries filtered total_pages page_offset
    let metas := tocRunLoop render sections
    .done { success := true
            total_pages := total_pages
            sections_found := metas.length
            page_offset_applied := page_offset
            toc_entries_found := filtered.length
            sections := metas }

/-- Outcome of the `main()` CLI driver of `extract_sections_toc.py` (lines
299-349): when the returned summary contains the `"error"` key, the process
prints advice to use the scan-based scripts and exits with status 1; no
other strategy is invoked anywhere in the script. -/
inductive TocCliOutcome where
  | exitFailure
  | completed (summary : TocSummary)
deriving Repr, DecidableEq

/-- The `main()` driver of `extract_sections_toc.py`, lines 333-342. -/
def tocMain (render : TocRenderer) (toc_entries : List TocEntry)
    (total_pages page_offset : Int) (toc_levels : Option (List Int)) : TocCliOutcome :=
  match extract_sections_by_toc render toc_entries total_pages page_offset toc_levels with
  | .noToc => .exitFailure
  | .done s => .completed s

/-! ## Concrete instances used in scenario and witness theorems -/

/-- A 3-page document with 5-level heading markers on pages 1 and 3 (page 3
carries two markers), as in Scenario D of the spec. -/
def demoDText (p : Nat) : String :=
  if p = 1 then "##### Alpha"
  else if p = 3 then "##### Beta\n##### Gamma"
  else "body"

/-- A renderer for the Scenario D document; never fails. -/
def demoDRenderer : Renderer := fun pages => .ok (pages.map demoDText)

/-- The first section `extract_next_section demoDRenderer 1 3 20` produces. -/
def secD1 : SectionInfo :=
  { section_id := "alpha", section_title := "Alpha", start_page := 1, end_page := 2,
    pages := [1, 2], content := "##### Alpha\n\nbody", character_count := 17,
    word_count := 3, header_found := true }

/-- A 45-page document whose only heading marker sits on page 41 — beyond the
initial 20-page window and the single 20-page extension started from page 1. -/
def lateHeaderText (p : Nat) : String := if p = 41 then "##### Late" else "x"

/-- Renderer for the `lateHeaderText` document; never fails. -/
def lateHeaderRenderer : Renderer := fun pages => .ok (pages.map lateHeaderText)

/-- A renderer for a document with no heading markers at all. -/
def plainRenderer : Renderer := fun pages => .ok (pages.map (fun _ => "x"))

/-- Page texts of a 5-page document with a heading marker on page 3. -/
def fragileText (p : Nat) : String := if p = 3 then "##### B" else "x"

/-- A renderer that raises whenever page 2 is part of the request and renders
`fragileText` otherwise — an unreadable page in an otherwise fine document. -/
def fragileRenderer : Renderer :=
  fun pages =>
    if pages.contains 2 then .error "render failure" else .ok (pages.map fragileText)

/-- A renderer for a pathological document with a heading marker on every
page: each page starts its own section. -/
def denseRenderer : Renderer := fun pages => .ok (pages.map (fun _ => "##### H"))

/-- The one-page section the scan strategy produces at page `s` of the
`denseRenderer` document. -/
def denseSec (s : Nat) : SectionInfo :=
  { section_id := "h", section_title := "H", start_page := s, end_page := s,
    pages := [s], content := "##### H", character_count := 7, word_count := 2,
    header_found := true }

/-- A TOC-side renderer returning the two page texts `"ab"` and `"cd"`. -/
def twoPageRenderer : TocRenderer := fun _ => .ok ["ab", "cd"]

/-- A planned two-page TOC section covering pages 1-2. -/
def twoPageSection : TocSection :=
  { level := 1, title := "T", page := 1, section_id := "t",
    start_page := 1, end_page := 2, page_count := 2 }

/-- The content `extract_section_content twoPageRenderer twoPageSection`
produces. -/
def scD : SectionContent :=
  { title := "T", section_id := "t", level := 1, text := "ab\ncd",
    start_page := 1, end_page := 2, page_count := 2,
    character_count := 4, word_count := 2 }

/-- Scenario A outline: entries at pages 1, 10 and 25. -/
def demoToc : List TocEntry := mkTocEntries [(1, "A", 1), (1, "B", 10), (1, "C", 25)]

/-- The boundaries Scenario A expects on a 30-page document with no offset:
ranges `[1,9]`, `[10,24]`, `[25,30]`. -/
def demoExpected : List TocSection :=
  [{ level := 1, title := "A", page := 1, section_id := "a",
     start_page := 1, end_page := 9, page_count := 9 },
   { level := 1, title := "B", page := 10, section_id := "b",
     start_page := 10, end_page := 24, page_count := 15 },
   { level := 1, title := "C", page := 25, section_id := "c",
     start_page := 25, end_page := 30, page_count := 6 }]

/-- An outline whose single entry points at page 5 of a 10-page document:
pages 1-4 belong to no planned section. -/
def gapToc : List TocEntry := mkTocEntries [(1, "A", 5)]

/-! ## Helper lemmas: Python string semantics -/

theorem str_eq_of_data {a b : String} (h : a.data = b.data) : a = b := by
  cases a
  cases b
  exact congrArg String.mk h

theorem join_data : ∀ l : List String, (String.join l).data = (l.map String.data).flatten := by
  have aux : ∀ (l : List String) (acc : String),
      (l.foldl (fun r s => r ++ s) acc).data = acc.data ++ (l.map String.data).flatten := by
    intro l
    induction l with
    | nil => intro acc; simp
    | cons t ts ih =>
      intro acc
      simp only [List.foldl_cons, List.map_cons, List.flatten_cons]
      rw [ih, String.data_append, List.append_assoc]
  intro l
  simpa [String.join] using aux l ""

theorem join_cons (a : String) (l : List String) :
    String.join (a :: l) = a ++ String.join l := by
  apply str_eq_of_data
  simp [join_data]

theorem endSt_cons (c : Char) (l : List Char) (inw : Bool) :
    endSt (c :: l) inw = endSt l (!isPySpace c) := by
  simp [endSt, List.foldl_cons]

theorem wcAux_append : ∀ (A B : List Char) (inw : Bool),
    wcAux (A ++ B) inw = wcAux A inw + wcAux B (endSt A inw) := by
  intro A
  induction A with
  | nil => intro B inw; simp [wcAux, endSt]
  | cons c A' ih =>
    intro B inw
    rw [List.cons_append, endSt_cons]
    simp only [wcAux]
    by_cases hc : isPySpace c = true
    · rw [if_pos hc, if_pos hc, hc]
      simp only [Bool.not_true]
      exact ih B false
    · have hc' : isPySpace c = false := by simpa using hc
      rw [if_neg hc, if_neg hc, hc']
      simp only [Bool.not_false]
      rw [ih B true]
      omega

theorem wcAux_all_ws : ∀ (W : List Char) (st : Bool),
    (∀ c ∈ W, isPySpace c = true) → wcAux W st = 0 := by
  intro W
  induction W with
  | nil => intro st _; rfl
  | cons c W' ih =>
    intro st h
    simp only [wcAux, h c (by simp)]
    exact ih false (fun d hd => h d (by simp [hd]))

theorem wcAux_dropWhile_ws : ∀ l : List Char,
    wcAux (l.dropWhile isPySpace) false = wcAux l false := by
  intro l
  induction l with
  | nil => rfl
  | cons c l' ih =>
    by_cases hc : isPySpace c = true
    · simp [List.dropWhile_cons, hc, ih, wcAux]
    · simp [List.dropWhile_cons, hc]

theorem pyStripList_decomp (l : List Char) :
    ∃ W, l.dropWhile isPySpace = pyStripList l ++ W ∧ ∀ c ∈ W, isPySpace c = true := by
  refine ⟨((l.dropWhile isPySpace).reverse.takeWhile isPySpace).reverse, ?_, ?_⟩
  · unfold pyStripList
    conv_lhs =>
      rw [← List.reverse_reverse (l.dropWhile isPySpace)]
      rw [← List.takeWhile_append_dropWhile (p := isPySpace)
        (l := (l.dropWhile isPySpace).reverse)]
    rw [List.reverse_append]
  · intro c hc
    rw [List.mem_reverse] at hc
    exact List.mem_takeWhile_imp hc

theorem wcAux_pyStripList (l : List Char) :
    wcAux (pyStripList l) false = wcAux l false := by
  obtain ⟨W, hW, hws⟩ := pyStripList_decomp l
  have h1 : wcAux (l.dropWhile isPySpace) false = wcAux l false := wcAux_dropWhile_ws l
  rw [hW, wcAux_append] at h1
  rw [wcAux_all_ws W _ hws] at h1
  omega

theorem pyWordCount_pyStrip (s : String) : pyWordCount (pyStrip s) = pyWordCount s :=
  wcAux_pyStripList s.data

theorem wcAux_append_nl (A B : List Char) (inw : Bool) :
    wcAux (A ++ '\n' :: B) inw = wcAux A inw + wcAux B false := by
  rw [wcAux_append]
  have : wcAux ('\n' :: B) (endSt A inw) = wcAux B false := by
    simp [wcAux, isPySpace]
  omega

theorem pyWordCount_join_pages : ∀ texts : List String,
    pyWordCount (String.join (texts.map (fun t => t ++ "\n"))) =
      (texts.map pyWordCount).sum := by
  intro texts
  induction texts with
  | nil => rfl
  | cons t ts ih =>
    simp only [pyWordCount, List.map_cons, join_cons, String.data_append,
      List.sum_cons] at ih ⊢
    rw [List.append_assoc, List.singleton_append, wcAux_append_nl]
    omega

theorem str_ne_empty_of_length {a : String} (h : a.length ≠ 0) : a ≠ "" := by
  intro he
  rw [he] at h
  exact h rfl

theorem combine_step_ne_empty (acc t : String) (_h : acc ≠ "") :
    acc ++ "\n\n" ++ t ≠ "" := by
  apply str_ne_empty_of_length
  have h2 : ("\n\n" : String).length = 2 := rfl
  simp only [String.length_append]
  omega

theorem foldl_combine_nonempty : ∀ (ts : List String) (acc : String), acc ≠ "" →
    ts.foldl (fun acc t => if acc ≠ "" then acc ++ "\n\n" ++ t else t) acc
      = acc ++ String.join (ts.map (fun t => "\n\n" ++ t)) := by
  intro ts
  induction ts with
  | nil =>
    intro acc _
    apply str_eq_of_data
    simp [String.join]
  | cons t ts ih =>
    intro acc hacc
    simp only [List.foldl_cons, if_pos hacc, List.map_cons, join_cons]
    rw [ih (acc ++ "\n\n" ++ t) (combine_step_ne_empty acc t hacc)]
    apply str_eq_of_data
    simp [String.data_append]

theorem joinSep_cons_join (t : String) (ts : List String) :
    joinSep "\n\n" (t :: ts) = t ++ String.join (ts.map (fun u => "\n\n" ++ u)) := by
  induction ts generalizing t with
  | nil =>
    apply str_eq_of_data
    simp [joinSep, String.join]
  | cons u ts ih =>
    show t ++ "\n\n" ++ joinSep "\n\n" (u :: ts) = _
    rw [ih u]
    apply str_eq_of_data
    simp [String.data_append, join_cons]

theorem combinePages_eq_joinSep : ∀ texts : List String,
    combinePages texts = joinSep "\n\n" (texts.dropWhile (fun t => t == "")) := by
  intro texts
  induction texts with
  | nil => rfl
  | cons t ts ih =>
    by_cases ht : t = ""
    · subst ht
      have h1 : combinePages ("" :: ts) = combinePages ts := by
        unfold combinePages
        simp only [List.foldl_cons]
        rw [if_neg (by simp)]
      rw [h1, ih, List.dropWhile_cons, if_pos (by simp)]
    · have h1 : combinePages (t :: ts) =
          List.foldl (fun acc u => if acc ≠ "" then acc ++ "\n\n" ++ u else u) t ts := by
        unfold combinePages
        simp only [List.foldl_cons]
        rw [if_neg (by simp)]
      rw [h1, foldl_combine_nonempty ts t ht, List.dropWhile_cons,
        if_neg (by simp [ht]), joinSep_cons_join]

theorem pyStripList_append_ws (A W : List Char) (hW : ∀ c ∈ W, isPySpace c = true) :
    pyStripList (A ++ W) = pyStripList A := by
  have hWnil : W.dropWhile isPySpace = [] := List.dropWhile_eq_nil_iff.mpr hW
  unfold pyStripList
  rw [List.dropWhile_append]
  by_cases hA : (A.dropWhile isPySpace).isEmpty = true
  · rw [if_pos hA, hWnil]
    rw [List.isEmpty_iff.mp hA]
  · rw [if_neg hA]
    rw [List.reverse_append]
    rw [List.dropWhile_append]
    have hWrev : (W.reverse.dropWhile isPySpace).isEmpty = true := by
      rw [List.isEmpty_iff]
      exact List.dropWhile_eq_nil_iff.mpr (fun c hc => hW c (List.mem_reverse.mp hc))
    rw [if_pos hWrev]

theorem pyStrip_append_nl (x : String) : pyStrip (x ++ "\n") = pyStrip x := by
  unfold pyStrip
  rw [String.data_append]
  rw [show ("\n" : String).data = ['\n'] from rfl]
  rw [pyStripList_append_ws x.data ['\n'] (by intro c hc; simp at hc; simp [hc, isPySpace])]

theorem join_map_nl : ∀ (t : String) (ts : List String),
    String.join ((t :: ts).map (fun u => u ++ "\n")) = joinSep "\n" (t :: ts) ++ "\n" := by
  intro t ts
  induction ts generalizing t with
  | nil =>
    apply str_eq_of_data
    simp [join_data, joinSep]
  | cons u ts ih =>
    show String.join ((t ++ "\n") :: (u :: ts).map (fun v => v ++ "\n")) = _
    rw [join_cons, ih u]
    apply str_eq_of_data
    show (t ++ "\n").data ++ (joinSep "\n" (u :: ts) ++ "\n").data
      = ((t ++ "\n" ++ joinSep "\n" (u :: ts)) ++ "\n").data
    simp [String.data_append]

/-- Inversion principle for a successful `extract_section_content` call. -/
theorem extract_section_content_inv (render : TocRenderer) (sec : TocSection)
    (sc : SectionContent) (h : extract_section_content render sec = some sc) :
    ∃ texts, render (pyRangeInt sec.start_page (sec.end_page + 1)) = .ok texts ∧
      texts ≠ [] ∧
      sc.text = pyStrip (String.join (texts.map (fun t => t ++ "\n"))) ∧
      sc.character_count = (texts.map String.length).sum ∧
      sc.word_count = (texts.map pyWordCount).sum ∧
      sc.title = sec.title ∧ sc.section_id = sec.section_id ∧ sc.level = sec.level ∧
      sc.start_page = sec.start_page ∧ sc.end_page = sec.end_page := by
  unfold extract_section_content at h
  cases hr : render (pyRangeInt sec.start_page (sec.end_page + 1)) with
  | error e =>
    rw [hr] at h
    exact absurd h (by simp)
  | ok texts =>
    rw [hr] at h
    dsimp only [] at h
    split at h
    · exact absurd h (by simp)
    · next hne =>
      rw [Option.some.injEq] at h
      subst h
      refine ⟨texts, rfl, ?_, rfl, rfl, rfl, rfl, rfl, rfl, rfl, rfl⟩
      intro hnil
      rw [hnil] at hne
      exact hne rfl

/-! ## Helper lemmas: scan strategy cursor and loop -/

theorem scanLoop_step_none (render : Renderer) (total fuel current count : Nat)
    (acc : List SectionSummary) (hcur : current ≤ total)
    (hnone : (extract_next_section render current total 20).1 = none) :
    scanLoop render total (fuel + 1) current count acc = some (acc, false) := by
  unfold scanLoop
  rw [if_pos hcur]
  cases hx : extract_next_section render current total 20 with
  | mk o n =>
    rw [hx] at hnone
    cases o with
    | none => rfl
    | some sec => simp at hnone

theorem extLoop_snd_mem {pairs : List (String × Nat)} {se n : Nat}
    (h : (extLoop pairs se).2 = some n) : n ∈ pairs.map Prod.snd := by
  induction pairs generalizing se with
  | nil => simp [extLoop] at h
  | cons pr rest ih =>
    obtain ⟨t, p⟩ := pr
    simp only [extLoop] at h
    split at h
    · simp only [Prod.snd, Option.some.injEq] at h
      simp [h]
    · simpa using Or.inr (ih h)

theorem extLoop_snd_none {pairs : List (String × Nat)} {se : Nat}
    (h : ∀ pr ∈ pairs, (find_section_header_in_text pr.1).isSome = false) :
    (extLoop pairs se).2 = none := by
  induction pairs generalizing se with
  | nil => rfl
  | cons pr rest ih =>
    obtain ⟨t, p⟩ := pr
    simp only [extLoop]
    rw [h (t, p) (by simp)]
    simp only [Bool.false_eq_true, if_false]
    exact ih (fun q hq => h q (by simp [hq]))

theorem initialBoundary_fst_ge (start : Nat) (result : List String) (h : result ≠ []) :
    start ≤ (initialBoundary start result).1 := by
  unfold initialBoundary
  cases hf : result.tail.findIdx? (fun t => (find_section_header_in_text t).isSome) with
  | none =>
    have : 1 ≤ result.length := by
      cases result with
      | nil => exact absurd rfl h
      | cons a l => simp
    simp only []
    omega
  | some i0 => simp

theorem initialBoundary_snd_gt {start n : Nat} {result : List String}
    (h : (initialBoundary start result).2 = some n) : start < n := by
  unfold initialBoundary at h
  cases hf : result.tail.findIdx? (fun t => (find_section_header_in_text t).isSome) with
  | none => rw [hf] at h; simp at h
  | some i0 =>
    rw [hf] at h
    simp only [Option.some.injEq] at h
    omega

theorem extendBoundary_snd_gt (render : Renderer) (start batch total : Nat)
    (st : Nat × Option Nat) (hfst : start ≤ st.1)
    (hsnd : ∀ m, st.2 = some m → start < m) :
    ∀ n, (extendBoundary render start batch total st).2 = some n → start < n := by
  intro n h
  unfold extendBoundary at h
  split at h
  · dsimp only [] at h
    split at h
    · exact hsnd n h
    · cases hre : render (List.range' (st.1 + 1) (min (total + 1) (st.1 + 21) - (st.1 + 1))) with
      | error e =>
        rw [hre] at h
        exact hsnd n h
      | ok er =>
        rw [hre] at h
        dsimp only [] at h
        have hmem := extLoop_snd_mem h
        obtain ⟨pr, hpr, he⟩ := List.mem_map.mp hmem
        have hmem2 := (List.of_mem_zip hpr).2
        have hr := List.mem_range'_1.mp hmem2
        omega
  · exact hsnd n h

/-- The cursor-advance invariant of `extract_next_section`: whenever
`start_page ≤ total_pages`, the returned next start page is strictly larger
than the requested one, on every path of the function (boundary found,
extension, absorb-to-end, empty result, renderer error). -/
theorem extract_next_section_next_gt (render : Renderer) (s total la : Nat)
    (hs : s ≤ total) : s < (extract_next_section render s total la).2 := by
  unfold extract_next_section
  rw [if_neg (by omega)]
  dsimp only []
  cases hr : render (List.range' s (min la (total - s + 1))) with
  | error e => simp
  | ok result =>
    cases result with
    | nil => simp
    | cons t0 rest =>
      dsimp only []
      have hne : (t0 :: rest) ≠ [] := by simp
      have h1 := initialBoundary_fst_ge s (t0 :: rest) hne
      have h2 : ∀ m, (initialBoundary s (t0 :: rest)).2 = some m → s < m :=
        fun m hm => initialBoundary_snd_gt hm
      have h3 := extendBoundary_snd_gt render s (min la (total - s + 1)) total
        (initialBoundary s (t0 :: rest)) h1 h2
      cases hsnd : (extendBoundary render s (min la (total - s + 1)) total
          (initialBoundary s (t0 :: rest))).2 with
      | none =>
        dsimp only []
        cases hfin : render (List.range' s (total + 1 - s)) with
        | error e => simp
        | ok fr => simp; omega
      | some n =>
        dsimp only []
        have hn := h3 n hsnd
        cases hfin : render (List.range' s ((extendBoundary render s (min la (total - s + 1))
            total (initialBoundary s (t0 :: rest))).1 + 1 - s)) with
        | error e => simp
        | ok fr => simpa using hn

/-- Inversion principle for a successful `extract_next_section` call: it
recovers the initial window fetch, the final contiguous re-fetch, and the
defining equations of every field of the produced section. -/
theorem extract_next_section_inv (render : Renderer) (s total la : Nat)
    (sec : SectionInfo) (next : Nat)
    (h : extract_next_section render s total la = (some sec, next)) :
    s ≤ total ∧
    ∃ t0 rest, render (List.range' s (min la (total - s + 1))) = .ok (t0 :: rest) ∧
    ∃ final_result, render sec.pages = .ok final_result ∧
      sec.start_page = s ∧
      sec.pages = List.range' s (sec.end_page + 1 - s) ∧
      sec.content = combinePages final_result ∧
      sec.character_count = sec.content.length ∧
      sec.word_count = pyWordCount sec.content ∧
      sec.header_found = (find_section_header_in_text t0).isSome ∧
      sec.section_title = (match find_section_header_in_text t0 with
        | none => "Content starting at Page " ++ toString s
        | some (t, _) => t) ∧
      sec.section_id = (match find_section_header_in_text t0 with
        | none => "untitled_page_" ++ toString s
        | some (t, _) => scanSlug t) ∧
      (sec.end_page, next) =
        (match (extendBoundary render s (min la (total - s + 1)) total
            (initialBoundary s (t0 :: rest))).2 with
          | none => (total, total + 1)
          | some m => ((extendBoundary render s (min la (total - s + 1)) total
              (initialBoundary s (t0 :: rest))).1, m)) := by
  unfold extract_next_section at h
  by_cases hst : s > total
  · rw [if_pos hst] at h
    exact absurd h (by simp)
  · rw [if_neg hst] at h
    refine ⟨by omega, ?_⟩
    dsimp only [] at h
    cases hr : render (List.range' s (min la (total - s + 1))) with
    | error e =>
      rw [hr] at h
      exact absurd h (by simp)
    | ok result =>
      rw [hr] at h
      dsimp only [] at h
      cases result with
      | nil => exact absurd h (by simp)
      | cons t0 rest =>
        refine ⟨t0, rest, rfl, ?_⟩
        dsimp only [] at h
        generalize hb : (match (extendBoundary render s (min la (total - s + 1)) total
            (initialBoundary s (t0 :: rest))).2 with
          | none => (total, total + 1)
          | some m => ((extendBoundary render s (min la (total - s + 1)) total
              (initialBoundary s (t0 :: rest))).1, m)) = bnds at h
        cases hfin : render (List.range' s (bnds.1 + 1 - s)) with
        | error e =>
          rw [hfin] at h
          exact absurd h (by simp)
        | ok fr =>
          rw [hfin] at h
          dsimp only [] at h
          rw [Prod.mk.injEq, Option.some.injEq] at h
          obtain ⟨hsec, hnext⟩ := h
          subst hnext
          subst hsec
          refine ⟨fr, hfin, rfl, rfl, rfl, rfl, rfl, rfl, rfl, rfl, ?_⟩
          exact Prod.mk.eta

/-- With fuel at least `total_pages + 1 - current_page`, the scan loop never
exhausts its fuel: the `while` loop of `extract_all_sections` terminates
because the cursor strictly advances. -/
theorem scanLoop_isSome (render : Renderer) (total : Nat) :
    ∀ fuel current count acc, total + 1 - current ≤ fuel →
      (scanLoop render total fuel current count acc).isSome := by
  intro fuel
  induction fuel with
  | zero =>
    intro current count acc hf
    unfold scanLoop
    rw [if_neg (by omega)]
    simp
  | succ fuel' ih =>
    intro current count acc hf
    unfold scanLoop
    split
    · next hcur =>
      cases hx : extract_next_section render current total 20 with
      | mk osec next =>
        cases osec with
        | none => simp
        | some sec =>
          simp only []
          split
          · simp
          · have hgt : current < next := by
              have := extract_next_section_next_gt render current total 20 hcur
              rw [hx] at this
              exact this
            exact ih next (count + 1) (acc ++ [toSummary sec]) (by omega)
    · simp

/-- The section count of the scan loop is bounded: starting from a count of
at most 100, at most `101 - count` further sections are appended before the
safety break at `section_count > 100` fires. -/
theorem scanLoop_length_le (render : Renderer) (total : Nat) :
    ∀ fuel current count acc out, count ≤ 100 →
      scanLoop render total fuel current count acc = some out →
      out.1.length ≤ acc.length + (101 - count) := by
  intro fuel
  induction fuel with
  | zero =>
    intro current count acc out hc h
    unfold scanLoop at h
    split at h
    · exact absurd h (by simp)
    · cases h; simp
  | succ fuel' ih =>
    intro current count acc out hc h
    unfold scanLoop at h
    split at h
    · cases hx : extract_next_section render current total 20 with
      | mk osec next =>
        rw [hx] at h
        cases osec with
        | none => cases h; simp
        | some sec =>
          simp only [] at h
          split at h
          · next hcnt =>
            cases h
            simp only [List.length_append, List.length_cons, List.length_nil]
            omega
          · next hcnt =>
            have := ih next (count + 1) (acc ++ [toSummary sec]) out (by omega) h
            simp only [List.length_append, List.length_cons, List.length_nil] at this
            omega
    · cases h; simp

/-- On the `denseRenderer` document with 102 pages, every scan step at a page
`1 ≤ s ≤ 102` yields the one-page section `denseSec s` and advances to
`s + 1`. -/
theorem dense_step (s : Nat) (h1 : 1 ≤ s) (h2 : s ≤ 102) :
    extract_next_section denseRenderer s 102 20 = (some (denseSec s), s + 1) := by
  unfold extract_next_section
  rw [if_neg (by omega)]
  dsimp only [denseRenderer]
  obtain ⟨b, hb⟩ : ∃ b, min 20 (102 - s + 1) = b + 1 :=
    ⟨min 20 (102 - s + 1) - 1, by omega⟩
  rw [hb, List.range'_succ, List.map_cons]
  dsimp only []
  by_cases hs : s = 102
  · have hb0 : b = 0 := by omega
    subst hs hb0
    decide
  · have hb1 : ∃ c, b = c + 1 := ⟨b - 1, by omega⟩
    obtain ⟨c, hc⟩ := hb1
    subst hc
    rw [List.range'_succ, List.map_cons]
    have hib : initialBoundary s ("##### H" :: "##### H" ::
        (List.range' (s + 1 + 1) c).map (fun _ => "##### H")) = (s, some (s + 1)) := by
      unfold initialBoundary
      rw [show ("##### H" :: "##### H" ::
          (List.range' (s + 1 + 1) c).map (fun _ => "##### H")).tail
        = "##### H" :: (List.range' (s + 1 + 1) c).map (fun _ => "##### H") from rfl]
      rw [List.findIdx?_cons]
      rw [if_pos (by decide)]
      simp
    rw [hib]
    have hex : extendBoundary denseRenderer s (c + 1 + 1) 102 (s, some (s + 1))
        = (s, some (s + 1)) := by
      unfold extendBoundary
      rw [if_neg (by simp)]
    rw [hex]
    have hfind : find_section_header_in_text "##### H" = some ("H", 0) := by decide
    simp only [hfind]
    rw [show s + 1 - s = 1 by omega]
    simp only [denseRenderer, List.range'_one, List.map_cons, List.map_nil]
    simp only [denseSec, Prod.mk.injEq, Option.some.injEq, SectionInfo.mk.injEq]
    refine ⟨⟨?_, ?_, ?_, ?_, ?_, ?_, ?_, ?_, ?_⟩, ?_⟩ <;> first | rfl | decide

/-- The scan loop over the dense 102-page document, started at the cursor
`count + 1` with `count` sections already counted, produces exactly
`101 - count` further one-page sections and then stops at the safety bound
with the warning flag set. -/
theorem dense_loop : ∀ (fuel count : Nat) (acc : List SectionSummary),
    count ≤ 100 → 102 - count ≤ fuel →
    scanLoop denseRenderer 102 fuel (count + 1) count acc =
      some (acc ++ (List.range' (count + 1) (101 - count)).map
        (fun s => toSummary (denseSec s)), true) := by
  intro fuel
  induction fuel with
  | zero => intro count acc hc hf; omega
  | succ fuel' ih =>
    intro count acc hc hf
    unfold scanLoop
    rw [if_pos (by omega)]
    rw [dense_step (count + 1) (by omega) (by omega)]
    dsimp only []
    by_cases hstop : count + 1 > 100
    · rw [if_pos hstop]
      have hc100 : count = 100 := by omega
      subst hc100
      rfl
    · rw [if_neg hstop]
      rw [ih (count + 1) (acc ++ [toSummary (denseSec (count + 1))]) (by omega) (by omega)]
      rw [show 101 - count = (100 - count) + 1 by omega, List.range'_succ, List.map_cons]
      rw [show (100 : Nat) - count = 101 - (count + 1) by omega]
      simp

/-! ## Helper lemmas: TOC boundary planning -/

theorem calcBounds_length : ∀ (toc : List TocEntry) (total off : Int),
    (calculate_section_boundaries toc total off).length = toc.length := by
  intro toc
  induction toc with
  | nil => intro total off; rfl
  | cons e toc' ih =>
    intro total off
    cases toc' with
    | nil => rfl
    | cons e2 rest =>
      simpa [calculate_section_boundaries] using ih total off

theorem calcBounds_start : ∀ (toc : List TocEntry) (total off : Int) (i : Nat)
    (hi : i < toc.length) (hs : i < (calculate_section_boundaries toc total off).length),
    (calculate_section_boundaries toc total off)[i].start_page
      = max 1 (min (toc[i].page + off) total) := by
  intro toc
  induction toc with
  | nil => intro total off i hi hs; simp at hi
  | cons e toc' ih =>
    intro total off i hi hs
    cases toc' with
    | nil =>
      have hi0 : i = 0 := by simpa using Nat.lt_one_iff.mp (by simpa using hi)
      subst hi0
      rfl
    | cons e2 rest =>
      cases i with
      | zero => rfl
      | succ j =>
        have hj : j < (e2 :: rest).length := by simpa using hi
        have hs' : j < (calculate_section_boundaries (e2 :: rest) total off).length := by
          rw [calcBounds_length]; exact hj
        have hrec := ih total off j hj hs'
        simpa [calculate_section_boundaries] using hrec

theorem calcBounds_end_inner : ∀ (toc : List TocEntry) (total off : Int) (i : Nat)
    (hi1 : i + 1 < toc.length) (hi : i < toc.length)
    (hs : i < (calculate_section_boundaries toc total off).length),
    (calculate_section_boundaries toc total off)[i].end_page
      = max ((calculate_section_boundaries toc total off)[i].start_page)
          (min (toc[i + 1].page + off - 1) total) := by
  intro toc
  induction toc with
  | nil => intro total off i hi1 hi hs; simp at hi
  | cons e toc' ih =>
    intro total off i hi1 hi hs
    cases toc' with
    | nil => simp at hi1
    | cons e2 rest =>
      cases i with
      | zero => rfl
      | succ j =>
        have hj1 : j + 1 < (e2 :: rest).length := by simpa using hi1
        have hj : j < (e2 :: rest).length := by simpa using hi
        have hs' : j < (calculate_section_boundaries (e2 :: rest) total off).length := by
          rw [calcBounds_length]; exact hj
        have hrec := ih total off j hj1 hj hs'
        simpa [calculate_section_boundaries] using hrec

theorem calcBounds_end_last : ∀ (toc : List TocEntry) (total off : Int) (i : Nat)
    (hi1 : i + 1 = toc.length) (hi : i < toc.length)
    (hs : i < (calculate_section_boundaries toc total off).length),
    (calculate_section_boundaries toc total off)[i].end_page
      = max ((calculate_section_boundaries toc total off)[i].start_page) total := by
  intro toc
  induction toc with
  | nil => intro total off i hi1 hi hs; simp at hi
  | cons e toc' ih =>
    intro total off i hi1 hi hs
    cases toc' with
    | nil =>
      have hi0 : i = 0 := by simpa using hi
      subst hi0
      show max (max 1 (min (e.page + off) total)) (min total total)
        = max (max 1 (min (e.page + off) total)) total
      omega
    | cons e2 rest =>
      cases i with
      | zero => simp at hi1
      | succ j =>
        have hj1 : j + 1 = (e2 :: rest).length := by simpa using hi1
        have hj : j < (e2 :: rest).length := by simpa [← hj1] using Nat.lt_succ_self j
        have hs' : j < (calculate_section_boundaries (e2 :: rest) total off).length := by
          rw [calcBounds_length]; exact hj
        have hrec := ih total off j hj1 hj hs'
        simpa [calculate_section_boundaries] using hrec

theorem calcBounds_start_le_end : ∀ (toc : List TocEntry) (total off : Int) (i : Nat)
    (hi : i < toc.length) (hs : i < (calculate_section_boundaries toc total off).length),
    (calculate_section_boundaries toc total off)[i].start_page
      ≤ (calculate_section_boundaries toc total off)[i].end_page := by
  intro toc total off i hi hs
  by_cases hlast : i + 1 = toc.length
  · rw [calcBounds_end_last toc total off i hlast hi hs]
    exact le_max_left _ _
  · have hi1 : i + 1 < toc.length := by omega
    rw [calcBounds_end_inner toc total off i hi1 hi hs]
    exact le_max_left _ _

theorem calcBounds_head_start : ∀ (e : TocEntry) (toc' : List TocEntry) (total off : Int)
    (hd : TocSection),
    (calculate_section_boundaries (e :: toc') total off).head? = some hd →
    hd.start_page = max 1 (min (e.page + off) total) := by
  intro e toc' total off hd h
  cases toc' with
  | nil =>
    simp only [calculate_section_boundaries, List.head?_cons, Option.some.injEq] at h
    rw [← h]
  | cons e2 rest =>
    simp only [calculate_section_boundaries, List.head?_cons, Option.some.injEq] at h
    rw [← h]

theorem calcBounds_start_lb : ∀ (toc' : List TocEntry) (e : TocEntry) (total off : Int),
    List.Chain' (fun a b => a.page < b.page) (e :: toc') →
    (∀ x ∈ e :: toc', 1 ≤ x.page + off ∧ x.page + off ≤ total) →
    ∀ sc ∈ calculate_section_boundaries (e :: toc') total off,
      e.page + off ≤ sc.start_page := by
  intro toc'
  induction toc' with
  | nil =>
    intro e total off _ hrange sc hmem
    have he := hrange e (by simp)
    simp only [calculate_section_boundaries, List.mem_singleton] at hmem
    subst hmem
    show e.page + off ≤ max 1 (min (e.page + off) total)
    omega
  | cons e2 rest ih =>
    intro e total off hchain hrange sc hmem
    have hlt : e.page < e2.page := (List.chain'_cons.mp hchain).1
    have he := hrange e (by simp)
    rw [show calculate_section_boundaries (e :: e2 :: rest) total off
        = { level := e.level, title := e.title, page := e.page, section_id := e.section_id,
            start_page := max 1 (min (e.page + off) total),
            end_page := max (max 1 (min (e.page + off) total))
              (min (e2.page + off - 1) total),
            page_count := max (max 1 (min (e.page + off) total))
              (min (e2.page + off - 1) total) - max 1 (min (e.page + off) total) + 1 } ::
          calculate_section_boundaries (e2 :: rest) total off from rfl] at hmem
    rcases List.mem_cons.mp hmem with hsc | hsc
    · subst hsc
      show e.page + off ≤ max 1 (min (e.page + off) total)
      omega
    · have := ih e2 total off (List.chain'_cons.mp hchain).2
        (fun x hx => hrange x (by simp [hx])) sc hsc
      omega

theorem calcBounds_cover : ∀ (toc' : List TocEntry) (e : TocEntry) (total off : Int),
    List.Chain' (fun a b => a.page < b.page) (e :: toc') →
    (∀ x ∈ e :: toc', 1 ≤ x.page + off ∧ x.page + off ≤ total) →
    ∀ p : Int, (e.page + off ≤ p ∧ p ≤ total) ↔
      ∃ sc ∈ calculate_section_boundaries (e :: toc') total off,
        sc.start_page ≤ p ∧ p ≤ sc.end_page := by
  intro toc'
  induction toc' with
  | nil =>
    intro e total off _ hrange p
    have he := hrange e (by simp)
    have hcalc : calculate_section_boundaries [e] total off
        = [{ level := e.level, title := e.title, page := e.page, section_id := e.section_id,
             start_page := max 1 (min (e.page + off) total),
             end_page := max (max 1 (min (e.page + off) total)) (min total total),
             page_count := max (max 1 (min (e.page + off) total)) (min total total)
               - max 1 (min (e.page + off) total) + 1 }] := rfl
    rw [hcalc]
    simp only [List.mem_singleton, exists_eq_left]
    constructor
    · intro hp
      constructor <;> omega
    · intro hp
      obtain ⟨h1, h2⟩ := hp
      constructor <;> omega
  | cons e2 rest ih =>
    intro e total off hchain hrange p
    have hlt : e.page < e2.page := (List.chain'_cons.mp hchain).1
    have he := hrange e (by simp)
    have he2 := hrange e2 (by simp)
    have hcalc : calculate_section_boundaries (e :: e2 :: rest) total off
        = { level := e.level, title := e.title, page := e.page, section_id := e.section_id,
            start_page := max 1 (min (e.page + off) total),
            end_page := max (max 1 (min (e.page + off) total))
              (min (e2.page + off - 1) total),
            page_count := max (max 1 (min (e.page + off) total))
              (min (e2.page + off - 1) total) - max 1 (min (e.page + off) total) + 1 } ::
          calculate_section_boundaries (e2 :: rest) total off := rfl
    have ihp := ih e2 total off (List.chain'_cons.mp hchain).2
      (fun x hx => hrange x (by simp [hx])) p
    rw [hcalc]
    constructor
    · intro hp
      by_cases hcase : p ≤ e2.page + off - 1
      · exact ⟨_, List.mem_cons_self _ _, by constructor <;> simp <;> omega⟩
      · obtain ⟨sc, hmem, hsc⟩ := ihp.mp ⟨by omega, hp.2⟩
        exact ⟨sc, List.mem_cons_of_mem _ hmem, hsc⟩
    · rintro ⟨sc, hmem, hsc⟩
      rcases List.mem_cons.mp hmem with rfl | hmem2
      · simp at hsc
        constructor <;> omega
      · have := ihp.mpr ⟨sc, hmem2, hsc⟩
        constructor <;> omega

theorem calcBounds_chain : ∀ (toc : List TocEntry) (total off : Int),
    List.Chain' (fun a b => a.page < b.page) toc →
    (∀ x ∈ toc, 1 ≤ x.page + off ∧ x.page + off ≤ total) →
    List.Chain' (fun a b => a.end_page + 1 = b.start_page)
      (calculate_section_boundaries toc total off) := by
  intro toc
  induction toc with
  | nil => intro total off _ _; simp [calculate_section_boundaries]
  | cons e toc' ih =>
    intro total off hchain hrange
    cases toc' with
    | nil => simp [calculate_section_boundaries]
    | cons e2 rest =>
      have hlt : e.page < e2.page := (List.chain'_cons.mp hchain).1
      have he := hrange e (by simp)
      have he2 := hrange e2 (by simp)
      have htail := ih total off (List.chain'_cons.mp hchain).2
        (fun x hx => hrange x (by simp [hx]))
      rw [show calculate_section_boundaries (e :: e2 :: rest) total off
          = { level := e.level, title := e.title, page := e.page, section_id := e.section_id,
              start_page := max 1 (min (e.page + off) total),
              end_page := max (max 1 (min (e.page + off) total))
                (min (e2.page + off - 1) total),
              page_count := max (max 1 (min (e.page + off) total))
                (min (e2.page + off - 1) total) - max 1 (min (e.page + off) total) + 1 } ::
            calculate_section_boundaries (e2 :: rest) total off from rfl]
      rw [List.chain'_cons']
      refine ⟨?_, htail⟩
      intro hd hhd
      have hstart := calcBounds_head_start e2 rest total off hd hhd
      show max (max 1 (min (e.page + off) total)) (min (e2.page + off - 1) total) + 1
        = hd.start_page
      rw [hstart]
      omega

theorem calcBounds_pairwise : ∀ (toc : List TocEntry) (total off : Int),
    List.Chain' (fun a b => a.page < b.page) toc →
    (∀ x ∈ toc, 1 ≤ x.page + off ∧ x.page + off ≤ total) →
    List.Pairwise (fun a b => a.end_page < b.start_page)
      (calculate_section_boundaries toc total off) := by
  intro toc
  induction toc with
  | nil => intro total off _ _; simp [calculate_section_boundaries]
  | cons e toc' ih =>
    intro total off hchain hrange
    cases toc' with
    | nil => simp [calculate_section_boundaries]
    | cons e2 rest =>
      have hlt : e.page < e2.page := (List.chain'_cons.mp hchain).1
      have he := hrange e (by simp)
      have he2 := hrange e2 (by simp)
      have htail := ih total off (List.chain'_cons.mp hchain).2
        (fun x hx => hrange x (by simp [hx]))
      rw [show calculate_section_boundaries (e :: e2 :: rest) total off
          = { level := e.level, title := e.title, page := e.page, section_id := e.section_id,
              start_page := max 1 (min (e.page + off) total),
              end_page := max (max 1 (min (e.page + off) total))
                (min (e2.page + off - 1) total),
              page_count := max (max 1 (min (e.page + off) total))
                (min (e2.page + off - 1) total) - max 1 (min (e.page + off) total) + 1 } ::
            calculate_section_boundaries (e2 :: rest) total off from rfl]
      refine List.pairwise_cons.mpr ⟨?_, htail⟩
      intro sc hsc
      have hlb := calcBounds_start_lb rest e2 total off (List.chain'_cons.mp hchain).2
        (fun x hx => hrange x (by simp [hx])) sc hsc
      show max (max 1 (min (e.page + off) total)) (min (e2.page + off - 1) total)
        < sc.start_page
      omega

/-- Equations of the complete scan run over the dense 102-page document:
101 one-page sections are produced and the safety warning fires. -/
theorem denseRun_eq :
    extract_all_sections denseRenderer 102 1 =
      { success := true, total_pages := 102, start_page := 1,
        sections := (List.range' 1 101).map (fun s => toSummary (denseSec s)) } ∧
    scanSafetyWarning denseRenderer 102 1 = true := by
  have hl := dense_loop 103 0 [] (by omega) (by omega)
  norm_num at hl
  constructor
  · unfold extract_all_sections
    rw [if_neg (by omega)]
    rw [show (102 : Nat) + 1 = 103 from rfl]
    rw [hl]
  · unfold scanSafetyWarning
    rw [if_neg (by omega)]
    rw [show (102 : Nat) + 1 = 103 from rfl]
    rw [hl]

/-! ## Claim theorems -/

/-- C10: for every `extract_next_section` call with
`1 ≤ start_page ≤ total_pages`, the returned next start page is strictly
greater than `start_page` on every path (boundary found, extension taken,
no boundary found, empty result, renderer error), so the orchestrator's
cursor advances monotonically and its while-loop terminates: the fuelled
loop never exhausts a fuel of `total_pages + 1 - current_page`. -/
theorem C10_cursor_advances :
    (∀ (render : Renderer) (s total la : Nat), 1 ≤ s → s ≤ total →
      s < (extract_next_section render s total la).2) ∧
    (∀ (render : Renderer) (total fuel current count : Nat)
        (acc : List SectionSummary),
      total + 1 - current ≤ fuel →
      (scanLoop render total fuel current count acc).isSome) :=
  ⟨fun render s total la _ hs => extract_next_section_next_gt render s total la hs,
   fun render total fuel current count acc hf =>
     scanLoop_isSome render total fuel current count acc hf⟩

/-- Witness for C10 on the Scenario D document. -/
theorem C10_witness :
    (1 ≤ 1 ∧ 1 ≤ 3 ∧ 1 < (extract_next_section demoDRenderer 1 3 20).2) ∧
    (3 + 1 - 1 ≤ 4 ∧ (scanLoop demoDRenderer 3 4 1 0 []).isSome) :=
  ⟨⟨by decide, by decide,
    C10_cursor_advances.1 demoDRenderer 1 3 20 (by decide) (by decide)⟩,
   ⟨by decide, C10_cursor_advances.2 demoDRenderer 3 4 1 0 [] (by decide)⟩⟩

/-- C7: the outline strategy computes
`startPage = clamp(entry[i].targetPage + pageOffset, 1, totalPages)` and
`endPage = clamp(entry[i+1].targetPage + pageOffset - 1, startPage,
totalPages)` for every entry but the last, whose `endPage = totalPages`;
consequently `startPage ≤ endPage` for every produced section, for any input
page numbers.  Scenario A: outline pages [1, 10, 25] on a 30-page document
yield exactly the ranges [1,9], [10,24], [25,30]. -/
theorem C7_boundary_formula :
    (∀ (toc : List TocEntry) (total off : Int), 1 ≤ total →
      (calculate_section_boundaries toc total off).length = toc.length ∧
      ∀ i (hi : i < toc.length)
          (hs : i < (calculate_section_boundaries toc total off).length),
        (calculate_section_boundaries toc total off)[i].start_page
          = max 1 (min (toc[i].page + off) total) ∧
        (∀ hi1 : i + 1 < toc.length,
          (calculate_section_boundaries toc total off)[i].end_page
            = max ((calculate_section_boundaries toc total off)[i].start_page)
                (min (toc[i + 1].page + off - 1) total)) ∧
        (i + 1 = toc.length →
          (calculate_section_boundaries toc total off)[i].end_page = total) ∧
        (calculate_section_boundaries toc total off)[i].start_page
          ≤ (calculate_section_boundaries toc total off)[i].end_page) ∧
    calculate_section_boundaries demoToc 30 0 = demoExpected := by
  constructor
  · intro toc total off htot
    refine ⟨calcBounds_length toc total off, ?_⟩
    intro i hi hs
    refine ⟨calcBounds_start toc total off i hi hs, ?_, ?_,
      calcBounds_start_le_end toc total off i hi hs⟩
    · intro hi1
      exact calcBounds_end_inner toc total off i hi1 hi hs
    · intro hlast
      rw [calcBounds_end_last toc total off i hlast hi hs,
        calcBounds_start toc total off i hi hs]
      omega
  · decide

/-- Witness for C7 at the Scenario A outline. -/
theorem C7_witness :
    (1 : Int) ≤ 30 ∧
    (calculate_section_boundaries demoToc 30 0).length = demoToc.length ∧
    (calculate_section_boundaries demoToc 30 0)[0].start_page
      = max (1 : Int) (min (demoToc[0].page + (0 : Int)) (30 : Int)) := by
  have h := C7_boundary_formula.1 demoToc 30 0 (by decide)
  exact ⟨by decide, h.1, (h.2 0 (by decide) (by decide)).1⟩

/-- C2 (amended): for every document whose outline is empty, the outline
strategy returns the error value `"No TOC found"` (the `NoOutlineError` of
the spec) and the CLI driver exits with failure status; the fallback to the
scan strategy is a printed recommendation to the user, not an automatic
orchestrator transition. -/
theorem C2_no_outline_error :
    ∀ (render : TocRenderer) (total off : Int) (lvls : Option (List Int)),
      extract_sections_by_toc render [] total off lvls = .noToc ∧
      tocMain render [] total off lvls = .exitFailure :=
  fun _ _ _ _ => ⟨rfl, rfl⟩

/-- C2 counterexample: with an empty outline the whole run ends in the CLI
failure exit (after the `"No TOC found"` error value), not in a
scan-strategy run — the claimed automatic fallback does not happen. -/
theorem C2_counterexample :
    extract_sections_by_toc twoPageRenderer [] 10 0 none = .noToc ∧
    tocMain twoPageRenderer [] 10 0 none = .exitFailure :=
  ⟨rfl, rfl⟩

/-- C5 counterexample: an outline whose first entry targets page 5 of a
10-page document plans a single section [5,10]; page 1 is covered by no
section, so the union of ranges is not [1, totalPages]. -/
theorem C5_counterexample :
    ¬ (∀ p : Int, (1 ≤ p ∧ p ≤ 10) ↔
      ∃ sc ∈ calculate_section_boundaries gapToc 10 0,
        sc.start_page ≤ p ∧ p ≤ sc.end_page) := by
  intro h
  obtain ⟨sc, hmem, hsc⟩ := (h 1).mp ⟨by norm_num, by norm_num⟩
  have hcalc : calculate_section_boundaries gapToc 10 0 =
      [{ level := 1, title := "A", page := 5, section_id := "a",
         start_page := 5, end_page := 10, page_count := 6 }] := by decide
  rw [hcalc, List.mem_singleton] at hmem
  subst hmem
  simp at hsc

/-- C5 (amended): for every outline run over a non-empty outline whose
adjusted target pages are strictly increasing and lie within
`[1, totalPages]`, consecutive planned ranges are contiguous
(`endPage + 1 = next startPage`), pairwise non-overlapping, and their union
is exactly `[firstEntry.targetPage + offset, totalPages]` — the interval
starts at the first entry's adjusted page, not at page 1. -/
theorem C5_coverage :
    ∀ (e : TocEntry) (toc' : List TocEntry) (total off : Int),
      List.Chain' (fun a b => a.page < b.page) (e :: toc') →
      (∀ x ∈ e :: toc', 1 ≤ x.page + off ∧ x.page + off ≤ total) →
      List.Chain' (fun a b => a.end_page + 1 = b.start_page)
        (calculate_section_boundaries (e :: toc') total off) ∧
      List.Pairwise (fun a b => a.end_page < b.start_page)
        (calculate_section_boundaries (e :: toc') total off) ∧
      ∀ p : Int, (e.page + off ≤ p ∧ p ≤ total) ↔
        ∃ sc ∈ calculate_section_boundaries (e :: toc') total off,
          sc.start_page ≤ p ∧ p ≤ sc.end_page :=
  fun e toc' total off hchain hrange =>
    ⟨calcBounds_chain (e :: toc') total off hchain hrange,
     calcBounds_pairwise (e :: toc') total off hchain hrange,
     calcBounds_cover toc' e total off hchain hrange⟩

/-- Witness for C5 at the Scenario A outline. -/
theorem C5_witness :
    List.Chain' (fun a b => a.end_page + 1 = b.start_page)
      (calculate_section_boundaries demoToc 30 0) ∧
    List.Pairwise (fun a b => a.end_page < b.start_page)
      (calculate_section_boundaries demoToc 30 0) ∧
    ∀ p : Int, ((1 : Int) + 0 ≤ p ∧ p ≤ 30) ↔
      ∃ sc ∈ calculate_section_boundaries demoToc 30 0,
        sc.start_page ≤ p ∧ p ≤ sc.end_page := by
  have hdemo : demoToc =
      ({ level := 1, title := "A", page := 1, section_id := "a" } : TocEntry) ::
      [({ level := 1, title := "B", page := 10, section_id := "b" } : TocEntry),
       { level := 1, title := "C", page := 25, section_id := "c" }] := by decide
  have h := C5_coverage { level := 1, title := "A", page := 1, section_id := "a" }
    [{ level := 1, title := "B", page := 10, section_id := "b" },
     { level := 1, title := "C", page := 25, section_id := "c" }] 30 0
    (List.Chain.cons (by decide) (List.Chain.cons (by decide) List.Chain.nil))
    (by decide)
  rw [hdemo]
  exact h

/-- C6 counterexample: on a 102-page document with a heading marker on every
page, the run produces 101 sections — the safety check `section_count > 100`
fires only after the 101st section, so the count does exceed the stated
bound of 100. -/
theorem C6_counterexample :
    (extract_all_sections denseRenderer 102 1).sections.length = 101 ∧
    ¬ (101 : Nat) ≤ 100 := by
  refine ⟨?_, by norm_num⟩
  rw [denseRun_eq.1]
  simp

/-- C6 (amended): a scan run never produces more than 101 sections; on
reaching the bound the run stops with a success summary (`COMPLETE`, not a
failure) and the warning is printed to the console — it is not recorded in
the manifest, whose record type has no warning or error field. -/
theorem C6_safety_bound :
    (∀ (render : Renderer) (total start : Nat),
      (extract_all_sections render total start).sections.length ≤ 101) ∧
    (extract_all_sections denseRenderer 102 1).sections.length = 101 ∧
    (extract_all_sections denseRenderer 102 1).success = true ∧
    scanSafetyWarning denseRenderer 102 1 = true := by
  refine ⟨?_, ?_, ?_, denseRun_eq.2⟩
  · intro render total start
    unfold extract_all_sections
    split
    · simp
    · cases hx : scanLoop render total (total + 1) start 0 [] with
      | none => simp
      | some out =>
        have hb := scanLoop_length_le render total (total + 1) start 0 [] out
          (by omega) hx
        cases out with
        | mk secs w => simpa using hb
  · rw [denseRun_eq.1]
    simp
  · rw [denseRun_eq.1]

/-- C1 counterexample: a renderer that fails whenever page 2 is requested,
on a 5-page document with a marker on page 3.  The error at the page-1
window is caught and `(None, 2)` is returned — but the orchestrator treats
the `None` as exhaustion and stops: the run completes with success and an
empty section list, even though a section is discoverable at page 3, and no
note of the failure appears anywhere in the summary (which has no error
list).  Scanning therefore does not resume at page s + 1. -/
theorem C1_counterexample :
    extract_next_section fragileRenderer 1 5 20 = (none, 2) ∧
    (extract_all_sections fragileRenderer 5 1).success = true ∧
    (extract_all_sections fragileRenderer 5 1).sections = [] ∧
    (extract_next_section fragileRenderer 3 5 20).1.isSome = true :=
  ⟨by decide, by decide, by decide, by decide⟩

/-- C1 (amended): a renderer error while fetching the window at `s` is
caught inside `extract_next_section`, which returns `(None, s + 1)`; the
orchestrator then treats the `None` section as end-of-input and stops the
scan loop — so a run whose window at its start page fails completes with a
success summary and an empty section list, and no error note is recorded
(the summary has no error list). -/
theorem C1_renderer_error_skip :
    ∀ (render : Renderer) (s total : Nat) (msg : String), 1 ≤ s → s ≤ total →
      render (List.range' s (min 20 (total - s + 1))) = .error msg →
      extract_next_section render s total 20 = (none, s + 1) ∧
      (extract_all_sections render total s).success = true ∧
      (extract_all_sections render total s).sections = [] := by
  intro render s total msg h1 h2 herr
  have hnext : extract_next_section render s total 20 = (none, s + 1) := by
    unfold extract_next_section
    rw [if_neg (by omega)]
    dsimp only []
    rw [herr]
  have hloop : scanLoop render total (total + 1) s 0 [] = some ([], false) :=
    scanLoop_step_none render total total s 0 [] (by omega) (by rw [hnext])
  have hall : extract_all_sections render total s =
      { success := true, total_pages := total, start_page := s, sections := [] } := by
    unfold extract_all_sections
    rw [if_neg (by omega), hloop]
  exact ⟨hnext, by rw [hall], by rw [hall]⟩

/-- Witness for C1 at the fragile 5-page document. -/
theorem C1_witness :
    fragileRenderer (List.range' 1 (min 20 (5 - 1 + 1))) = .error "render failure" ∧
    extract_next_section fragileRenderer 1 5 20 = (none, 1 + 1) ∧
    (extract_all_sections fragileRenderer 5 1).success = true ∧
    (extract_all_sections fragileRenderer 5 1).sections = [] := by
  have h := C1_renderer_error_skip fragileRenderer 1 5 "render failure"
    (by decide) (by decide) (by rfl)
  exact ⟨by rfl, h.1, h.2.1, h.2.2⟩

/-- C3 counterexample: the outline strategy on two pages `"ab"`, `"cd"`
records `characterCount = 4` (the sum of per-page lengths) while the text
actually written after the metadata block is `"ab\ncd"` of length 5. -/
theorem C3_counterexample :
    extract_section_content twoPageRenderer twoPageSection = some scD ∧
    scD.character_count ≠ scD.text.length :=
  ⟨by decide, by decide⟩

/-- C3 (amended): for scan-strategy sections the recorded `characterCount`
and `wordCount` equal `len(text)` and the token count of the written text;
for outline-strategy sections the `characterCount` is the sum of the
per-page text lengths — which differs from the length of the written text,
since the inserted newline separators and the final strip are not counted —
while the `wordCount` does equal the whitespace-token count of the written
text.  In both strategies the artifact is the metadata block followed by
exactly the counted text. -/
theorem C3_counts :
    (∀ (render : Renderer) (s total la next : Nat) (sec : SectionInfo),
      extract_next_section render s total la = (some sec, next) →
      sec.character_count = sec.content.length ∧
      sec.word_count = pyWordCount sec.content ∧
      scanArtifactText sec = scanMetaBlock sec ++ sec.content) ∧
    (∀ (render : TocRenderer) (sec : TocSection) (sc : SectionContent),
      extract_section_content render sec = some sc →
      ∃ texts, render (pyRangeInt sec.start_page (sec.end_page + 1)) = .ok texts ∧
        sc.character_count = (texts.map String.length).sum ∧
        sc.word_count = pyWordCount sc.text ∧
        tocArtifactText sc = tocMetaBlock sc ++ sc.text) := by
  constructor
  · intro render s total la next sec hx
    obtain ⟨_, t0, rest, _, fr, _, _, _, _, hchar, hword, _, _, _, _⟩ :=
      extract_next_section_inv render s total la sec next hx
    exact ⟨hchar, hword, rfl⟩
  · intro render sec sc hx
    obtain ⟨texts, hr, _, htext, hchar, hword, _, _, _, _, _⟩ :=
      extract_section_content_inv render sec sc hx
    refine ⟨texts, hr, hchar, ?_, rfl⟩
    rw [hword, htext, pyWordCount_pyStrip, pyWordCount_join_pages]

/-- Witness for C3 at the Scenario D scan section and the two-page outline
section. -/
theorem C3_witness :
    (secD1.character_count = secD1.content.length ∧
     secD1.word_count = pyWordCount secD1.content ∧
     scanArtifactText secD1 = scanMetaBlock secD1 ++ secD1.content) ∧
    ∃ texts, twoPageRenderer (pyRangeInt twoPageSection.start_page
        (twoPageSection.end_page + 1)) = .ok texts ∧
      scD.character_count = (texts.map String.length).sum ∧
      scD.word_count = pyWordCount scD.text ∧
      tocArtifactText scD = tocMetaBlock scD ++ scD.text :=
  ⟨C3_counts.1 demoDRenderer 1 3 20 3 secD1 (by decide),
   C3_counts.2 twoPageRenderer twoPageSection scD (by decide)⟩

/-- C9 counterexample: the outline strategy joins the page texts `"ab"`,
`"cd"` with a single newline (and strips), producing `"ab\ncd"`, not the
blank-line join `"ab\n\ncd"`. -/
theorem C9_counterexample :
    extract_section_content twoPageRenderer twoPageSection = some scD ∧
    scD.text ≠ joinSep "\n\n" ["ab", "cd"] :=
  ⟨by decide, by decide⟩

/-- C9 (amended): a scan-strategy section's text is its constituent pages'
texts joined with a blank-line separator, except that leading empty page
texts are dropped without leaving a separator; an outline-strategy section's
text is its pages' texts joined with a single newline separator and then
stripped of surrounding whitespace — not a blank-line join. -/
theorem C9_text_join :
    (∀ (render : Renderer) (s total la next : Nat) (sec : SectionInfo),
      extract_next_section render s total la = (some sec, next) →
      ∃ texts, render sec.pages = .ok texts ∧
        sec.content = joinSep "\n\n" (texts.dropWhile (fun t => t == ""))) ∧
    (∀ (render : TocRenderer) (sec : TocSection) (sc : SectionContent),
      extract_section_content render sec = some sc →
      ∃ texts, render (pyRangeInt sec.start_page (sec.end_page + 1)) = .ok texts ∧
        sc.text = pyStrip (joinSep "\n" texts)) := by
  constructor
  · intro render s total la next sec hx
    obtain ⟨_, t0, rest, _, fr, hfin, _, _, hcontent, _, _, _, _, _, _⟩ :=
      extract_next_section_inv render s total la sec next hx
    exact ⟨fr, hfin, by rw [hcontent, combinePages_eq_joinSep]⟩
  · intro render sec sc hx
    obtain ⟨texts, hr, hne, htext, _, _, _, _, _, _, _⟩ :=
      extract_section_content_inv render sec sc hx
    refine ⟨texts, hr, ?_⟩
    obtain ⟨t, ts, rfl⟩ : ∃ t ts, texts = t :: ts := by
      cases texts with
      | nil => exact absurd rfl hne
      | cons a b => exact ⟨a, b, rfl⟩
    rw [htext, join_map_nl, pyStrip_append_nl]

/-- C4 counterexample: a 45-page document whose only heading marker is on
page 41.  From page 1 the initial window covers pages 1-20 and the single
extension covers pages 21-40; no further extension happens, so the section
absorbs all pages through 45 (`nextStart = 46`) even though a heading marker
exists on page 41 of the remainder. -/
theorem C4_counterexample :
    (extract_next_section lateHeaderRenderer 1 45 20).2 = 46 ∧
    (extract_next_section lateHeaderRenderer 1 45 20).1.map SectionInfo.end_page
      = some 45 ∧
    (extract_next_section lateHeaderRenderer 1 45 20).1.map SectionInfo.start_page
      = some 1 ∧
    (find_section_header_in_text (lateHeaderText 41)).isSome = true :=
  ⟨by decide, by decide, by decide, by decide⟩

/-- C4 (amended): when no boundary marker is found in the initial full
look-ahead window and the window has not reached totalPages, the search is
extended by exactly one additional window of up to 20 pages; if that
extension also contains no marker, the current section absorbs all pages
through totalPages and nextStart is set beyond totalPages — regardless of
whether heading markers exist on later pages.  The extension is not
repeated. -/
theorem C4_single_extension :
    ∀ (render : Renderer) (s total la : Nat) (texts etexts ftexts : List String),
      1 ≤ la → 1 ≤ s → s ≤ total →
      render (List.range' s (min la (total - s + 1))) = .ok texts →
      texts.length = min la (total - s + 1) →
      (∀ t ∈ texts.tail, (find_section_header_in_text t).isSome = false) →
      s + texts.length - 1 < total →
      render (List.range' (s + texts.length)
          (min (total + 1) (s + texts.length + 20) - (s + texts.length))) = .ok etexts →
      (∀ t ∈ etexts, (find_section_header_in_text t).isSome = false) →
      render (List.range' s (total + 1 - s)) = .ok ftexts →
      (extract_next_section render s total la).2 = total + 1 ∧
      (extract_next_section render s total la).1.map SectionInfo.end_page = some total ∧
      (extract_next_section render s total la).1.map SectionInfo.start_page = some s := by
  intro render s total la texts etexts ftexts hla h1 h2 hwin hlen hnohdr hmid hext hnohdr2 hfin
  obtain ⟨t0, rest, rfl⟩ : ∃ t0 rest, texts = t0 :: rest := by
    cases texts with
    | nil =>
      exfalso
      have h0 : min la (total - s + 1) = 0 := by simpa using hlen.symm
      omega
    | cons a b => exact ⟨a, b, rfl⟩
  have hminL : min la (total - s + 1) = (t0 :: rest).length := hlen.symm
  rw [hminL] at hwin
  have hst0 : initialBoundary s (t0 :: rest) = (s + (t0 :: rest).length - 1, none) := by
    unfold initialBoundary
    rw [show ((t0 :: rest).tail.findIdx?
        (fun t => (find_section_header_in_text t).isSome)) = none from
      List.findIdx?_eq_none_iff.mpr (fun t ht => hnohdr t ht)]
  have hguard : ((none : Option Nat).isNone &&
      (s + (t0 :: rest).length - 1 == s + (t0 :: rest).length - 1) &&
      decide (s + (t0 :: rest).length - 1 < total)) = true := by
    have hmid' : s + rest.length < total := by
      simp only [List.length_cons] at hmid
      omega
    simp [hmid']
  have hargeq : List.range' (s + (t0 :: rest).length - 1 + 1)
      (min (total + 1) (s + (t0 :: rest).length - 1 + 21)
        - (s + (t0 :: rest).length - 1 + 1))
      = List.range' (s + (t0 :: rest).length)
        (min (total + 1) (s + (t0 :: rest).length + 20) - (s + (t0 :: rest).length)) := by
    have e1 : s + (t0 :: rest).length - 1 + 1 = s + (t0 :: rest).length := by
      simp only [List.length_cons]
      omega
    have e2 : s + (t0 :: rest).length - 1 + 21 = s + (t0 :: rest).length + 20 := by
      simp only [List.length_cons]
      omega
    rw [e1, e2]
  have hst1 : (extendBoundary render s ((t0 :: rest).length) total
      (s + (t0 :: rest).length - 1, none)).2 = none := by
    unfold extendBoundary
    rw [if_pos hguard]
    dsimp only []
    split
    · rfl
    · rw [hargeq, hext]
      dsimp only []
      apply extLoop_snd_none
      intro pr hpr
      exact hnohdr2 pr.1 (List.of_mem_zip hpr).1
  unfold extract_next_section
  rw [if_neg (by omega)]
  dsimp only []
  rw [hminL, hwin]
  dsimp only []
  rw [hst0, hst1]
  dsimp only []
  rw [hfin]
  exact ⟨rfl, rfl, rfl⟩

/-- Witness for C4 on a 45-page document with no heading markers at all. -/
theorem C4_witness :
    (extract_next_section plainRenderer 1 45 20).2 = 45 + 1 ∧
    (extract_next_section plainRenderer 1 45 20).1.map SectionInfo.end_page
      = some 45 ∧
    (extract_next_section plainRenderer 1 45 20).1.map SectionInfo.start_page
      = some 1 :=
  C4_single_extension plainRenderer 1 45 20 ((List.range' 1 20).map (fun _ => "x"))
    ((List.range' 21 20).map (fun _ => "x")) ((List.range' 1 45).map (fun _ => "x"))
    (by decide) (by decide) (by decide) (by rfl) (by decide) (by decide)
    (by decide) (by rfl) (by decide) (by rfl)

/-- C8: in the scan strategy, a heading marker on the window's first page
names the new section; with no marker the section is titled
"Content starting at Page s" with id "untitled_page_s".  The first
subsequent page of the window carrying a marker becomes the boundary: the
current section ends on the page before it and the next section starts
there.  Scenario D (markers on pages 1, 3, 3) yields exactly two sections,
the first ending at page 2, so no page belongs to two sections. -/
theorem C8_scan_titles_boundary :
    (∀ (render : Renderer) (s total la next : Nat) (sec : SectionInfo)
        (t0 : String) (rest : List String),
      extract_next_section render s total la = (some sec, next) →
      render (List.range' s (min la (total - s + 1))) = .ok (t0 :: rest) →
      (∀ title ln, find_section_header_in_text t0 = some (title, ln) →
        sec.section_title = title) ∧
      (find_section_header_in_text t0 = none →
        sec.section_title = "Content starting at Page " ++ toString s ∧
        sec.section_id = "untitled_page_" ++ toString s) ∧
      (∀ i0, rest.findIdx? (fun t => (find_section_header_in_text t).isSome)
          = some i0 →
        sec.end_page = s + i0 ∧ next = s + i0 + 1)) ∧
    (extract_all_sections demoDRenderer 3 1).sections.map
        (fun m => (m.title, m.start_page, m.end_page))
      = [("Alpha", 1, 2), ("Beta", 3, 3)] := by
  constructor
  · intro render s total la next sec t0 rest hx hwin
    obtain ⟨hs, t0', rest', hr, fr, hfin, hstart, hpages, hcontent, hchar, hword,
      hheader, htitle, hid, hbound⟩ :=
      extract_next_section_inv render s total la sec next hx
    rw [hwin] at hr
    rw [Except.ok.injEq, List.cons.injEq] at hr
    obtain ⟨ht0, hrest⟩ := hr
    subst ht0
    subst hrest
    refine ⟨?_, ?_, ?_⟩
    · intro title ln hfind
      rw [htitle, hfind]
    · intro hfind
      rw [htitle, hid, hfind]
      exact ⟨rfl, rfl⟩
    · intro i0 hidx
      have hib : initialBoundary s (t0 :: rest) = (s + i0, some (s + i0 + 1)) := by
        unfold initialBoundary
        rw [show ((t0 :: rest).tail.findIdx?
            (fun t => (find_section_header_in_text t).isSome)) = some i0 from hidx]
      have hex : extendBoundary render s (min la (total - s + 1)) total
          (s + i0, some (s + i0 + 1)) = (s + i0, some (s + i0 + 1)) := by
        unfold extendBoundary
        rw [if_neg (by simp)]
      rw [hib, hex] at hbound
      dsimp only [] at hbound
      rw [Prod.mk.injEq] at hbound
      exact ⟨hbound.1, hbound.2⟩
  · decide

/-- Witness for C8 at the Scenario D document. -/
theorem C8_witness :
    secD1.section_title = "Alpha" ∧ secD1.end_page = 1 + 1 ∧ (3 : Nat) = 1 + 1 + 1 := by
  have h := C8_scan_titles_boundary.1 demoDRenderer 1 3 20 3 secD1 "##### Alpha"
    ["body", "##### Beta\n##### Gamma"] (by decide) (by rfl)
  exact ⟨h.1 "Alpha" 0 (by decide), (h.2.2 1 (by decide)).1, (h.2.2 1 (by decide)).2⟩

/-- Witness for C9 at the Scenario D scan section and the two-page outline
section. -/
theorem C9_witness :
    (∃ texts, demoDRenderer secD1.pages = .ok texts ∧
      secD1.content = joinSep "\n\n" (texts.dropWhile (fun t => t == ""))) ∧
    (∃ texts, twoPageRenderer (pyRangeInt twoPageSection.start_page
        (twoPageSection.end_page + 1)) = .ok texts ∧
      scD.text = pyStrip (joinSep "\n" texts)) :=
  ⟨C9_text_join.1 demoDRenderer 1 3 20 3 secD1 (by decide),
   C9_text_join.2 twoPageRenderer twoPageSection scD (by decide)⟩

end RagSeg
